import Mathlib

/-
  Verification of the A2C Acrobot agent (reinforce-acrobot.ipynb).

  The development shallowly embeds the agent's code:
  * the numeric content of `A2C.reinforce` (TD target, critic loss, actor
    loss) is modelled over the real numbers, with PyTorch's reverse-mode
    gradient of a scalar loss with respect to one scalar parameter modelled
    by the Mathlib derivative of the loss as a function of that parameter;
  * the agent's mutable state (`mode`, `traj`, `discount`, `gamma`, and the
    two networks together with their optimizer states, abstracted as a
    parameter block of type `P` transformed by an arbitrary update function
    `reinfFn` exactly where the code calls `self.reinforce()`) is modelled
    as an explicit state machine over `ℚ`;
  * `A2C.build_net` is modelled as a layer-list builder together with a
    forward-pass evaluator;
  * the episode driver `play_epis` is modelled with its exact control flow,
    including the `agent.close()` call sitting inside the loop body before
    the `return` statement.  Every control path of the Python loop body
    ends in `break`, in the `agent.close()` call, or in `return`, so the
    loop body is entered at most once and the embedding is straight-line.
-/

namespace Acrobot

/-! ### Numeric model of the update rule (`A2C.reinforce`) -/

/-- Python coerces a `bool` to a float in `1.-done`: `True ↦ 1.0`, `False ↦ 0.0`. -/
def boolToR (d : Bool) : ℝ := if d then 1 else 0

/-- TD target from `reinforce`: `target_tensor = reward + (1.-done)*self.gamma*next_v_tensor`. -/
noncomputable def td_target (g r : ℝ) (done : Bool) (vNext : ℝ) : ℝ :=
  r + (1 - boolToR done) * g * vNext

/-- Gradient of the critic loss exactly as the code computes it.  In
`reinforce`, `target_tensor` is built from `self.critic_net(next_state_tensor)`
without any detach, and `critic_loss_tensor.backward()` therefore
differentiates `(V(s) - (r + (1-done)·γ·V(s')))²` through both critic forward
passes.  `V u x` is the critic value at state `x` when the critic parameter is
`u`; the gradient is the derivative at the current parameter `w`. -/
noncomputable def critic_grad_code {σ : Type} (g r : ℝ) (done : Bool) (s s' : σ)
    (V : ℝ → σ → ℝ) (w : ℝ) : ℝ :=
  deriv (fun u => (V u s - td_target g r done (V u s')) ^ 2) w

/-- Modelled from the spec's words for comparison: the critic gradient when
the TD target is treated as a fixed constant (evaluated at the current
parameter `w` and not back-propagated through). -/
noncomputable def critic_grad_target_detached {σ : Type} (g r : ℝ) (done : Bool) (s s' : σ)
    (V : ℝ → σ → ℝ) (w : ℝ) : ℝ :=
  deriv (fun u => (V u s - td_target g r done (V w s')) ^ 2) w

/-- The clamp from `reinforce`: `pi_tensor.clamp(1e-6, 1.)`. -/
noncomputable def pyClamp (x lo hi : ℝ) : ℝ := min (max x lo) hi

/-- Actor loss from `reinforce` as a function of the actor parameter `t`:
`actor_loss_tensor = -(self.discount*td_error_tensor*logpi_tensor)`, where
`logpi_tensor = torch.log(pi_tensor.clamp(1e-6, 1.))` and the TD error
`td_target - V(s)` is computed from the critic networks, which do not depend
on the actor parameter.  `pi t` is the actor probability of the taken action
at the visited state when the actor parameter is `t`. -/
noncomputable def actor_loss_code {σ : Type} (g r : ℝ) (done : Bool) (s s' : σ)
    (V : σ → ℝ) (discount : ℝ) (pi : ℝ → ℝ) (t : ℝ) : ℝ :=
  -(discount * (td_target g r done (V s') - V s) *
      Real.log (pyClamp (pi t) (1 / 1000000) 1))

/-! ### The function approximator (`A2C.build_net`) -/

/-- One entry of the `nn.Sequential` layer list. -/
inductive Layer where
  | linear : ℕ → ℕ → Layer
  | relu : Layer
  | softmax : Layer
deriving DecidableEq

/-- Structure of the network built by `A2C.build_net`: one `nn.Linear` plus
`nn.ReLU` per `zip([input_size]+hidden_sizes, hidden_sizes+[output_size])`
pair, the trailing `ReLU` dropped by `layers[:-1]`, then the optional output
activator appended. -/
def build_net (input_size : ℕ) (hidden_sizes : List ℕ) (output_size : ℕ)
    (output_activator : Option Layer) : List Layer :=
  let pairs := List.zip (input_size :: hidden_sizes) (hidden_sizes ++ [output_size])
  let layers := (pairs.map (fun p => [Layer.linear p.1 p.2, Layer.relu])).flatten
  let layers2 := layers.dropLast
  match output_activator with
  | some act => layers2 ++ [act]
  | none => layers2

/-- Layer list of the actor network from `A2C.__init__`:
`build_net(input_size=6, hidden_sizes=[100], output_size=3, output_activator=Softmax)`. -/
def actor_layers : List Layer := build_net 6 [100] 3 (some Layer.softmax)

/-- Dot product of a weight row with the input vector. -/
noncomputable def dotL (row x : List ℝ) : ℝ :=
  ((List.zip row x).map (fun p => p.1 * p.2)).sum

/-- Affine layer `x ↦ W·x + b`, one output per (row, bias) pair. -/
noncomputable def affineL (W : List (List ℝ)) (b : List ℝ) (x : List ℝ) : List ℝ :=
  (List.zip W b).map (fun p => dotL p.1 x + p.2)

/-- Rectified linear nonlinearity, elementwise. -/
noncomputable def reluV (x : List ℝ) : List ℝ := x.map (fun v => max v 0)

/-- Softmax output transform `v ↦ exp v / Σ exp`. -/
noncomputable def softmaxL (x : List ℝ) : List ℝ :=
  x.map (fun v => Real.exp v / (x.map Real.exp).sum)

/-- Forward pass through a layer list, consuming one (weights, bias) pair per
affine layer. -/
noncomputable def forwardNet : List Layer → List (List (List ℝ) × List ℝ) → List ℝ → List ℝ
  | [], _, x => x
  | Layer.linear _ _ :: rest, [], x => forwardNet rest [] x
  | Layer.linear _ _ :: rest, wb :: ws, x => forwardNet rest ws (affineL wb.1 wb.2 x)
  | Layer.relu :: rest, ws, x => forwardNet rest ws (reluV x)
  | Layer.softmax :: rest, ws, x => forwardNet rest ws (softmaxL x)

/-- Forward pass of the actor network on an observation, for given weights of
its two affine layers. -/
noncomputable def actorForward (W1 : List (List ℝ)) (b1 : List ℝ)
    (W2 : List (List ℝ)) (b2 : List ℝ) (obs : List ℝ) : List ℝ :=
  forwardNet actor_layers [(W1, b1), (W2, b2)] obs

/-! ### The agent state machine (`A2C.reset_mode` / `A2C.play_step`) -/

/-- An observation: the environment's 6-dimensional state vector (floats
modelled as rationals in the state machine). -/
abbrev Obs := List ℚ

/-- One element of the Python list `self.traj`, which holds interleaved
observations, rewards, done flags and actions. -/
inductive Entry where
  | obs : Obs → Entry
  | rew : ℚ → Entry
  | don : Bool → Entry
  | act : ℕ → Entry

/-- The mutable attributes of an `A2C` instance.  The two networks and their
two Adam optimizers are abstracted into a parameter block of type `P`;
nothing else in `play_step`, `reset_mode` or `play_epis` reads or writes
them except the call to `self.reinforce()`. -/
structure A2CState (P : Type) where
  gamma : ℚ
  discount : ℚ
  mode : Option String
  traj : List Entry
  params : P

/-- Model of `A2C.reset_mode`: `self.mode = mode; if self.mode=='train':
self.traj = []; self.discount = 1.` -/
def resetMode {P : Type} (mode : Option String) (s : A2CState P) : A2CState P :=
  if mode = some "train" then
    { s with mode := mode, traj := [], discount := 1 }
  else
    { s with mode := mode }

/-- Model of `A2C.play_step`.  Action selection (actor forward pass plus
categorical sampling) is abstracted as `sample`, a function of the parameter
block and the observation; the net effect of `self.reinforce()` on the
networks and optimizers is abstracted as `reinfFn gamma discount traj params`.
In training mode the code appends the four new scalars to `self.traj`, calls
`self.reinforce()` when `len(self.traj) >= 8`, and then multiplies the
discount accumulator by `gamma`; in any other mode it mutates nothing. -/
def playStep {P : Type} (reinfFn : ℚ → ℚ → List Entry → P → P) (sample : P → Obs → ℕ)
    (s : A2CState P) (observation : Obs) (reward : ℚ) (done : Bool) : ℕ × A2CState P :=
  let action := sample s.params observation
  if s.mode = some "train" then
    let traj2 := s.traj ++ [Entry.obs observation, Entry.rew reward, Entry.don done,
      Entry.act action]
    let params2 := if 8 ≤ traj2.length then reinfFn s.gamma s.discount traj2 s.params
      else s.params
    (action, { s with traj := traj2, params := params2, discount := s.discount * s.gamma })
  else
    (action, s)

/-- Iterate `play_step` over a list of (observation, reward, done) inputs. -/
def runSteps {P : Type} (reinfFn : ℚ → ℚ → List Entry → P → P) (sample : P → Obs → ℕ) :
    List (Obs × ℚ × Bool) → A2CState P → A2CState P
  | [], s => s
  | i :: rest, s =>
      runSteps reinfFn sample rest (playStep reinfFn sample s i.1 i.2.1 i.2.2).2

/-- An agent-facing operation of an evaluation run: one `play_step` call or
one `reset_mode` call. -/
inductive EvalOp where
  | step : Obs → ℚ → Bool → EvalOp
  | reset : Option String → EvalOp

/-- Execute a list of agent operations in order. -/
def runOps {P : Type} (reinfFn : ℚ → ℚ → List Entry → P → P) (sample : P → Obs → ℕ) :
    List EvalOp → A2CState P → A2CState P
  | [], s => s
  | EvalOp.step o r d :: rest, s =>
      runOps reinfFn sample rest (playStep reinfFn sample s o r d).2
  | EvalOp.reset m :: rest, s => runOps reinfFn sample rest (resetMode m s)

/-- True when no operation of the list is a `reset_mode('train')`. -/
def noTrainReset (ops : List EvalOp) : Bool :=
  ops.all (fun op => match op with
    | EvalOp.reset m => decide (m ≠ some "train")
    | _ => true)

/-- Python slice `self.traj[-8:]`: the last eight elements, or the whole list
when it is shorter than eight. -/
def lastSlice8 (t : List Entry) : List Entry := t.drop (t.length - 8)

/-- Unpacking a list into exactly eight variables, as in
`state, _, _, action, next_state, reward, done, next_action = ...`; any other
length raises a `ValueError` in Python, modelled by `none`. -/
def matchEight (l : List Entry) :
    Option (Entry × Entry × Entry × Entry × Entry × Entry × Entry × Entry) :=
  match l with
  | [a, b, c, d, e, f, g, h] => some (a, b, c, d, e, f, g, h)
  | _ => none

/-- First statement of `reinforce`: destructure `self.traj[-8:]` into the
eight fields of the two most recent transitions. -/
def unpack8 (t : List Entry) :
    Option (Entry × Entry × Entry × Entry × Entry × Entry × Entry × Entry) :=
  matchEight (lastSlice8 t)

/-! ### The episode driver (`play_epis`) -/

/-- The environment collaborator, as a deterministic oracle: `reset` gives
the initial observation and `step t a` gives the (observation, reward, done)
triple the environment returns at step index `t` for action `a`. -/
structure EnvModel where
  reset : Obs
  step : ℕ → ℕ → Obs × ℚ × Bool

/-- Python truthiness test `if max_episode_steps and elapsed_steps>=max_episode_steps`. -/
def limitHit (maxSteps : Option ℕ) (elapsed : ℕ) : Bool :=
  match maxSteps with
  | none => false
  | some m => decide (m ≠ 0) && decide (m ≤ elapsed)

/-- How a `play_epis` call ends: the `return episode_reward, elapsed_steps`
statement, the implicit `return None` after a `break` falls off the end of
the function, or an uncaught `AttributeError` on a missing method. -/
inductive EpisOutcome where
  | returned : ℚ → ℕ → EpisOutcome
  | returnedNone : EpisOutcome
  | attrError : String → EpisOutcome
deriving DecidableEq

/-- The method names the `A2C` class defines. -/
def A2C_methods : List String :=
  [ "__init__", "reset_mode", "play_step", "build_net", "reinforce" ]

/-- Model of `play_epis`.  The Python body is
`observation = env.reset(); reward = 0.; done = False;
agent.reset_mode(mode=mode); episode_reward = 0.; elapsed_steps = 0` followed
by `while True:` whose body is: `action = agent.play_step(observation, reward,
done)`, `if done: break`, `observation, reward, done, _ = env.step(action)`,
`episode_reward += reward`, `elapsed_steps += 1`,
`if max_episode_steps and elapsed_steps>=max_episode_steps: break`,
`agent.close()`, `return episode_reward, elapsed_steps`.  Every control path
of the body leaves the loop (via `break`, the `agent.close()` attribute
lookup, or `return`), so the loop body runs at most once; `done` is the
literal `False` on that first iteration. -/
def play_epis {P : Type} (reinfFn : ℚ → ℚ → List Entry → P → P) (sample : P → Obs → ℕ)
    (env : EnvModel) (agent : A2CState P) (max_episode_steps : Option ℕ)
    (mode : Option String) : EpisOutcome × A2CState P :=
  let observation := env.reset
  let s0 := resetMode mode agent
  let step1 := playStep reinfFn sample s0 observation 0 false
  let s1 := step1.2
  if (false : Bool) then
    (EpisOutcome.returnedNone, s1)
  else
    let out1 := env.step 0 step1.1
    let episode_reward := out1.2.1
    let elapsed_steps := 1
    if limitHit max_episode_steps elapsed_steps then
      (EpisOutcome.returnedNone, s1)
    else if A2C_methods.contains "close" then
      (EpisOutcome.returned episode_reward elapsed_steps, s1)
    else
      (EpisOutcome.attrError "close", s1)

/-! ### Concrete fixtures used by counterexamples and witnesses -/

/-- A zero 6-dimensional observation. -/
def obs6 : Obs := [0, 0, 0, 0, 0, 0]

/-- A generic non-terminal training input with the environment's −1 reward. -/
def stepIn : Obs × ℚ × Bool := (obs6, -1, false)

/-- A fresh agent with the notebook's default `gamma = 0.99`, trivial
parameter block, and no mode set yet. -/
def agent0 : A2CState Unit :=
  { gamma := 99 / 100, discount := 1, mode := none, traj := [], params := () }

/-- An agent whose parameter block is a counter of `reinforce` invocations. -/
def agentCount0 : A2CState ℕ :=
  { gamma := 99 / 100, discount := 1, mode := none, traj := [], params := 0 }

/-- An idle agent with parameter block `7`, used to observe that evaluation
leaves the parameters untouched. -/
def agentCount7 : A2CState ℕ :=
  { gamma := 99 / 100, discount := 1, mode := none, traj := [], params := 7 }

/-- A `reinforce` effect that leaves the trivial parameter block unchanged. -/
def unitReinf : ℚ → ℚ → List Entry → Unit → Unit := fun _ _ _ u => u

/-- A `reinforce` effect that counts its invocations. -/
def countReinf : ℚ → ℚ → List Entry → ℕ → ℕ := fun _ _ _ n => n + 1

/-- A fixed action selection. -/
def pick0 {P : Type} (_ : P) (_ : Obs) : ℕ := 0

/-- An environment that never terminates and always pays −1. -/
def envStub : EnvModel := { reset := obs6, step := fun _ _ => (obs6, -1, false) }

/-- An environment that first signals `done` on its third step. -/
def envDone3 : EnvModel :=
  { reset := obs6, step := fun t _ => (obs6, -1, decide (2 ≤ t)) }

/-! ### Helper lemmas -/

/-- A training-mode `play_step` keeps the mode and `gamma`, multiplies the
discount accumulator by `gamma` once, and appends exactly four entries. -/
theorem playStep_train {P : Type} (reinfFn : ℚ → ℚ → List Entry → P → P)
    (sample : P → Obs → ℕ) (s : A2CState P) (o : Obs) (r : ℚ) (d : Bool)
    (h : s.mode = some "train") :
    (playStep reinfFn sample s o r d).2.mode = some "train" ∧
    (playStep reinfFn sample s o r d).2.gamma = s.gamma ∧
    (playStep reinfFn sample s o r d).2.discount = s.discount * s.gamma ∧
    (playStep reinfFn sample s o r d).2.traj.length = s.traj.length + 4 := by
  simp [playStep, h]

/-- Iterated training-mode `play_step` facts: mode and `gamma` are stable,
the discount accumulator picks up one factor of `gamma` per step, and the
transition list grows by four entries per step. -/
theorem runSteps_train_facts {P : Type} (reinfFn : ℚ → ℚ → List Entry → P → P)
    (sample : P → Obs → ℕ) (ins : List (Obs × ℚ × Bool)) :
    ∀ s : A2CState P, s.mode = some "train" →
      (runSteps reinfFn sample ins s).mode = some "train" ∧
      (runSteps reinfFn sample ins s).gamma = s.gamma ∧
      (runSteps reinfFn sample ins s).discount = s.discount * s.gamma ^ ins.length ∧
      (runSteps reinfFn sample ins s).traj.length = s.traj.length + 4 * ins.length := by
  induction ins with
  | nil => intro s h; simp [runSteps, h]
  | cons i rest ih =>
      intro s h
      obtain ⟨hm, hg, hd, ht⟩ := playStep_train reinfFn sample s i.1 i.2.1 i.2.2 h
      obtain ⟨ihm, ihg, ihd, iht⟩ := ih (playStep reinfFn sample s i.1 i.2.1 i.2.2).2 hm
      simp only [runSteps]
      refine ⟨ihm, by rw [ihg, hg], ?_, ?_⟩
      · rw [ihd, hd, hg, List.length_cons, pow_succ]
        ring
      · rw [iht, ht, List.length_cons]
        omega

/-- `reset_mode('train')` clears the window, resets the discount accumulator
and keeps `gamma` and the parameter block. -/
theorem resetMode_train {P : Type} (s : A2CState P) :
    (resetMode (some "train") s).mode = some "train" ∧
    (resetMode (some "train") s).gamma = s.gamma ∧
    (resetMode (some "train") s).discount = 1 ∧
    (resetMode (some "train") s).traj = [] ∧
    (resetMode (some "train") s).params = s.params := by
  simp [resetMode]

/-- Destructuring into eight variables succeeds exactly on lists of length
eight. -/
theorem matchEight_isSome (l : List Entry) :
    (matchEight l).isSome = true ↔ l.length = 8 := by
  rcases l with _ | ⟨a, _ | ⟨b, _ | ⟨c, _ | ⟨d, _ | ⟨e, _ | ⟨f, _ | ⟨g, _ | ⟨h, _ | ⟨i, tl⟩⟩⟩⟩⟩⟩⟩⟩⟩ <;>
    simp [matchEight]

/-- Summing `exp v / S` over a list factors the division out of the sum. -/
theorem sum_map_exp_div (x : List ℝ) (S : ℝ) :
    (x.map (fun v => Real.exp v / S)).sum = (x.map Real.exp).sum / S := by
  induction x with
  | nil => simp
  | cons a t ih => simp [ih, add_div]

/-- The exponentials of a nonempty list have positive sum. -/
theorem exp_list_sum_pos (x : List ℝ) (hx : x ≠ []) : 0 < (x.map Real.exp).sum := by
  refine List.sum_pos _ ?_ ?_
  · intro a ha
    obtain ⟨v, _, rfl⟩ := List.mem_map.mp ha
    exact Real.exp_pos v
  · simpa using hx

/-- Softmax of a nonempty list is a probability vector of the same length. -/
theorem softmaxL_props (x : List ℝ) (hx : x ≠ []) :
    (softmaxL x).length = x.length ∧ (∀ p ∈ softmaxL x, 0 ≤ p) ∧ (softmaxL x).sum = 1 := by
  have hS : 0 < (x.map Real.exp).sum := exp_list_sum_pos x hx
  refine ⟨by simp [softmaxL], ?_, ?_⟩
  · intro p hp
    obtain ⟨v, _, rfl⟩ := List.mem_map.mp hp
    exact div_nonneg (Real.exp_pos v).le hS.le
  · rw [softmaxL, sum_map_exp_div, div_self hS.ne']

/-- Unfolding the actor forward pass along the built layer list. -/
theorem actorForward_eq (W1 : List (List ℝ)) (b1 : List ℝ) (W2 : List (List ℝ))
    (b2 : List ℝ) (obs : List ℝ) :
    actorForward W1 b1 W2 b2 obs = softmaxL (affineL W2 b2 (reluV (affineL W1 b1 obs))) :=
  rfl

/-! ### Claim theorems -/

/-- C1: in the update rule, the TD target computed from the current
transition equals exactly `r + γ·V(s')` when `done` is false and exactly `r`
when `done` is true, for every reward, discount factor and critic function. -/
theorem C1_td_target_bootstrap (g r : ℝ) {σ : Type} (V : σ → ℝ) (s' : σ) :
    td_target g r false (V s') = r + g * V s' ∧ td_target g r true (V s') = r := by
  constructor <;> simp [td_target, boolToR]

/-- C2 (counterexample): the claim says that after each `play_step` in
training mode the transition window holds at most 8 entries.  In the code
nothing ever removes entries from `self.traj`: after three training steps
following `reset_mode('train')` the window holds 12 entries. -/
theorem C2_counterexample :
    ¬ ((runSteps unitReinf pick0 [stepIn, stepIn, stepIn]
        (resetMode (some "train") agent0)).traj.length ≤ 8) := by
  decide

/-- C2 (amended): the transition window is never truncated.  After `t`
training-mode `play_step` calls following `reset_mode('train')` it holds
exactly `4·t` entries, and each training-mode `play_step` appends its four
new entries to the existing window, dropping nothing. -/
theorem C2_traj_never_truncated {P : Type} (reinfFn : ℚ → ℚ → List Entry → P → P)
    (sample : P → Obs → ℕ) :
    (∀ (ins : List (Obs × ℚ × Bool)) (s : A2CState P),
        (runSteps reinfFn sample ins (resetMode (some "train") s)).traj.length =
          4 * ins.length) ∧
    (∀ (s : A2CState P) (o : Obs) (r : ℚ) (d : Bool), s.mode = some "train" →
        (playStep reinfFn sample s o r d).2.traj =
          s.traj ++ [Entry.obs o, Entry.rew r, Entry.don d,
            Entry.act (sample s.params o)]) := by
  constructor
  · intro ins s
    have h0 := resetMode_train (s := s)
    have h := (runSteps_train_facts reinfFn sample ins
      (resetMode (some "train") s) h0.1).2.2.2
    rw [h, h0.2.2.2.1]
    simp
  · intro s o r d h
    simp [playStep, h]

/-- C2 (witness for the amended theorem). -/
theorem C2_witness :
    ((runSteps unitReinf pick0 [stepIn] (resetMode (some "train") agent0)).traj.length
        = 4 * 1) ∧
    ((playStep unitReinf pick0 (resetMode (some "train") agent0) obs6 0 false).2.traj =
        (resetMode (some "train") agent0).traj ++
          [Entry.obs obs6, Entry.rew 0, Entry.don false, Entry.act 0]) :=
  ⟨(C2_traj_never_truncated unitReinf pick0).1 [stepIn] agent0,
   (C2_traj_never_truncated unitReinf pick0).2 (resetMode (some "train") agent0)
     obs6 0 false (by decide)⟩

/-- C6 (counterexample): the claim says the update rule is invoked if and
only if the window holds two full transitions (8 entries).  With the
parameter block counting `reinforce` invocations: after two training steps
one invocation has happened, and the third step performs a second invocation
even though the window it hands to `reinforce` holds 12 entries, not 8. -/
theorem C6_counterexample :
    (runSteps countReinf pick0 [stepIn, stepIn]
        (resetMode (some "train") agentCount0)).params = 1 ∧
    (runSteps countReinf pick0 [stepIn, stepIn, stepIn]
        (resetMode (some "train") agentCount0)).params = 2 ∧
    (runSteps countReinf pick0 [stepIn, stepIn, stepIn]
        (resetMode (some "train") agentCount0)).traj.length = 12 := by
  decide

/-- C6 (amended): a training-mode `play_step` invokes the update rule if and
only if the post-append window holds at least two full transitions (at least
8 entries; more than 8 from the third training step on, since history is
retained), and the update rule's first statement, destructuring the last-8
slice of the window into eight variables, fails fast (unpacking error,
modelled by `none`) exactly when the window holds fewer than 8 entries. -/
theorem C6_update_guard {P : Type} (reinfFn : ℚ → ℚ → List Entry → P → P)
    (sample : P → Obs → ℕ) :
    (∀ (s : A2CState P) (o : Obs) (r : ℚ) (d : Bool),
        (playStep reinfFn sample s o r d).2.params =
          if s.mode = some "train" ∧ 8 ≤ s.traj.length + 4 then
            reinfFn s.gamma s.discount
              (s.traj ++ [Entry.obs o, Entry.rew r, Entry.don d,
                Entry.act (sample s.params o)]) s.params
          else s.params) ∧
    (∀ t : List Entry, (unpack8 t).isSome = true ↔ 8 ≤ t.length) := by
  constructor
  · intro s o r d
    by_cases hm : s.mode = some "train"
    · by_cases hl : 8 ≤ s.traj.length + 4 <;>
        simp [playStep, hm, hl]
    · simp [playStep, hm]
  · intro t
    rw [unpack8, matchEight_isSome, lastSlice8, List.length_drop]
    omega

/-- C7: the discount accumulator is `1` right after `reset_mode('train')`,
equals `γ^t` after `t` training-mode `play_step` calls within the episode,
and is unchanged by `play_step` in any non-training mode; the next
`reset_mode('train')` is the first conjunct again. -/
theorem C7_discount_accumulator {P : Type} (reinfFn : ℚ → ℚ → List Entry → P → P)
    (sample : P → Obs → ℕ) :
    (∀ s : A2CState P, (resetMode (some "train") s).discount = 1) ∧
    (∀ (ins : List (Obs × ℚ × Bool)) (s : A2CState P),
        (runSteps reinfFn sample ins (resetMode (some "train") s)).discount =
          s.gamma ^ ins.length) ∧
    (∀ (s : A2CState P) (o : Obs) (r : ℚ) (d : Bool), s.mode ≠ some "train" →
        (playStep reinfFn sample s o r d).2.discount = s.discount) := by
  refine ⟨fun s => (resetMode_train s).2.2.1, ?_, ?_⟩
  · intro ins s
    have h0 := resetMode_train (s := s)
    have h := (runSteps_train_facts reinfFn sample ins
      (resetMode (some "train") s) h0.1).2.2.1
    rw [h, h0.2.2.1, h0.2.1, one_mul]
  · intro s o r d h
    simp [playStep, h]

/-- C7 (witness). -/
theorem C7_witness :
    ((resetMode (some "train") agent0).discount = 1) ∧
    ((runSteps unitReinf pick0 [stepIn, stepIn]
        (resetMode (some "train") agent0)).discount = agent0.gamma ^ 2) ∧
    ((playStep unitReinf pick0 agent0 obs6 0 false).2.discount = agent0.discount) :=
  ⟨(C7_discount_accumulator unitReinf pick0).1 agent0,
   (C7_discount_accumulator unitReinf pick0).2.1 [stepIn, stepIn] agent0,
   (C7_discount_accumulator unitReinf pick0).2.2 agent0 obs6 0 false (by decide)⟩

/-- C9: in a non-training mode `play_step` mutates nothing at all (the
returned state is the input state), and any sequence of `play_step` and
non-training `reset_mode` calls starting from a non-training state leaves
the parameter block (networks and optimizer states) identical. -/
theorem C9_idle_no_mutation {P : Type} (reinfFn : ℚ → ℚ → List Entry → P → P)
    (sample : P → Obs → ℕ) :
    (∀ (s : A2CState P) (o : Obs) (r : ℚ) (d : Bool), s.mode ≠ some "train" →
        playStep reinfFn sample s o r d = (sample s.params o, s)) ∧
    (∀ (ops : List EvalOp) (s : A2CState P), s.mode ≠ some "train" →
        noTrainReset ops = true → (runOps reinfFn sample ops s).params = s.params) := by
  constructor
  · intro s o r d h
    simp [playStep, h]
  · intro ops
    induction ops with
    | nil => intro s _ _; rfl
    | cons op rest ih =>
        intro s h hn
        cases op with
        | step o r d =>
            have hn2 : noTrainReset rest = true := by
              simp only [noTrainReset, List.all_cons, Bool.and_eq_true] at hn
              exact hn.2
            have hps : (playStep reinfFn sample s o r d).2 = s := by
              simp [playStep, h]
            simp only [runOps, hps]
            exact ih s h hn2
        | reset m =>
            simp only [noTrainReset, List.all_cons, Bool.and_eq_true,
              decide_eq_true_eq] at hn
            have hm : m ≠ some "train" := hn.1
            have hn2 : noTrainReset rest = true := hn.2
            have hrm : resetMode m s = { s with mode := m } := by
              simp [resetMode, hm]
            simp only [runOps, hrm]
            exact ih { s with mode := m } (by simpa using hm) hn2

/-- C9 (witness): an idle `play_step` and a three-operation evaluation run
leave the parameter block `7` untouched. -/
theorem C9_witness :
    (playStep countReinf pick0 agentCount7 obs6 (-1) false = (0, agentCount7)) ∧
    ((runOps countReinf pick0
        [EvalOp.step obs6 (-1) false, EvalOp.reset none, EvalOp.step obs6 0 true]
        agentCount7).params = 7) :=
  ⟨(C9_idle_no_mutation countReinf pick0).1 agentCount7 obs6 (-1) false (by decide),
   (C9_idle_no_mutation countReinf pick0).2
     [EvalOp.step obs6 (-1) false, EvalOp.reset none, EvalOp.step obs6 0 true]
     agentCount7 (by decide) (by decide)⟩

/-- C3 (counterexample): the claim says the TD target is treated as a fixed
constant when the critic gradient is computed.  For the one-parameter critic
`V u x = u` with `γ = 1/2`, `r = 0`, `done = false`, at parameter `1`, the
gradient the code computes is `1/2` while the detached-target gradient the
claim describes is `1`. -/
theorem C3_counterexample :
    critic_grad_code (2⁻¹ : ℝ) 0 false (0 : ℕ) 1 (fun u _ => u) 1 ≠
      critic_grad_target_detached (2⁻¹ : ℝ) 0 false (0 : ℕ) 1 (fun u _ => u) 1 := by
  have e1 : critic_grad_code (2⁻¹ : ℝ) 0 false (0 : ℕ) 1 (fun u _ => u) 1 =
      deriv (fun u : ℝ => (2⁻¹ * u) ^ 2) 1 := by
    unfold critic_grad_code
    congr 1
    funext u
    simp [td_target, boolToR]
    ring
  have e2 : critic_grad_target_detached (2⁻¹ : ℝ) 0 false (0 : ℕ) 1 (fun u _ => u) 1 =
      deriv (fun u : ℝ => (u - 2⁻¹) ^ 2) 1 := by
    unfold critic_grad_target_detached
    congr 1
    funext u
    simp [td_target, boolToR]
  have hd1 : HasDerivAt (fun u : ℝ => (2⁻¹ * u) ^ 2)
      ((2 : ℕ) * (2⁻¹ * (1 : ℝ)) ^ (2 - 1) * (2⁻¹ * 1)) 1 :=
    HasDerivAt.pow 2 ((hasDerivAt_id (1 : ℝ)).const_mul 2⁻¹)
  have hd2 : HasDerivAt (fun u : ℝ => (u - 2⁻¹) ^ 2)
      ((2 : ℕ) * ((1 : ℝ) - 2⁻¹) ^ (2 - 1) * 1) 1 :=
    HasDerivAt.pow 2 ((hasDerivAt_id (1 : ℝ)).sub_const 2⁻¹)
  rw [e1, e2, hd1.deriv, hd2.deriv]
  norm_num

/-- C3 (amended): the critic's gradient step minimizes the squared error
between `V(s)` and the TD target, but the target is not detached: the
gradient flows through the critic's forward pass on `s'` as well, giving
`2·(V(s) − target)·(∂V(s) − (1−done)·γ·∂V(s'))` instead of the semi-gradient
`2·(V(s) − target)·∂V(s)` the claim describes. -/
theorem C3_target_not_detached {σ : Type} (g r : ℝ) (done : Bool) (s s' : σ)
    (V : ℝ → σ → ℝ) (w dVs dVs' : ℝ)
    (hs : HasDerivAt (fun u => V u s) dVs w)
    (hs' : HasDerivAt (fun u => V u s') dVs' w) :
    critic_grad_code g r done s s' V w =
      2 * (V w s - td_target g r done (V w s')) *
        (dVs - (1 - boolToR done) * g * dVs') := by
  have hin : HasDerivAt (fun u => V u s - td_target g r done (V u s'))
      (dVs - (1 - boolToR done) * g * dVs') w := by
    have htar : HasDerivAt (fun u => td_target g r done (V u s'))
        ((1 - boolToR done) * g * dVs') w := by
      have := (hs'.const_mul ((1 - boolToR done) * g)).const_add r
      simpa [td_target, mul_assoc] using this
    exact hs.sub htar
  have hsq := HasDerivAt.pow 2 hin
  unfold critic_grad_code
  rw [hsq.deriv]
  push_cast
  ring

/-- C3 (witness for the amended theorem). -/
theorem C3_witness :
    critic_grad_code (2⁻¹ : ℝ) 0 false (0 : ℕ) 1 (fun u _ => u) 1 =
      2 * ((1 : ℝ) - td_target 2⁻¹ 0 false 1) * (1 - (1 - boolToR false) * 2⁻¹ * 1) :=
  C3_target_not_detached 2⁻¹ 0 false (0 : ℕ) 1 (fun u _ => u) 1 1 1
    (hasDerivAt_id 1) (hasDerivAt_id 1)

/-- C4: the actor's loss is `−(discount · δ · log π)` with the probability of
the taken action clamped to at least `1e-6` before the logarithm, and the
gradient with respect to the actor parameter has the TD error `δ` (computed
from the critic, which does not depend on the actor parameter) as a fixed
multiplicative scalar: the derivative is `−(discount · δ · L)` where `L` is
the derivative of the clamped log-probability alone. -/
theorem C4_actor_gradient {σ : Type} (g r : ℝ) (done : Bool) (s s' : σ) (V : σ → ℝ)
    (discount : ℝ) (pi : ℝ → ℝ) (t L : ℝ)
    (hlog : HasDerivAt (fun u => Real.log (pyClamp (pi u) (1 / 1000000) 1)) L t) :
    (1 / 1000000 : ℝ) ≤ pyClamp (pi t) (1 / 1000000) 1 ∧
    HasDerivAt (actor_loss_code g r done s s' V discount pi)
      (-(discount * (td_target g r done (V s') - V s) * L)) t := by
  constructor
  · refine le_min (le_max_right _ _) (by norm_num)
  · exact (hlog.const_mul (discount * (td_target g r done (V s') - V s))).neg

/-- C4 (witness): with a constant actor output the clamped log-probability is
constant and the actor gradient is `−(discount · δ · 0)`. -/
theorem C4_witness :
    ((1 / 1000000 : ℝ) ≤ pyClamp ((fun _ : ℝ => (2 : ℝ)) 5) (1 / 1000000) 1) ∧
    HasDerivAt (actor_loss_code (2⁻¹ : ℝ) 0 false (0 : ℕ) 1 (fun _ => (3 : ℝ)) 1
        (fun _ : ℝ => (2 : ℝ)))
      (-(1 * (td_target 2⁻¹ 0 false ((fun _ : ℕ => (3 : ℝ)) 1) -
          (fun _ : ℕ => (3 : ℝ)) 0) * 0)) 5 :=
  C4_actor_gradient 2⁻¹ 0 false (0 : ℕ) 1 (fun _ => (3 : ℝ)) 1 (fun _ : ℝ => (2 : ℝ)) 5 0
    (hasDerivAt_const 5 (Real.log (pyClamp 2 (1 / 1000000) 1)))

/-- C5 (code bug, evaluated at the failing input): against an environment
that first signals `done` on its third step and with a step limit of 10, the
claim (and the code's own header comment) says the driver returns the sum of
the three step rewards and the step count 3, but the call aborts with an
`AttributeError` on `agent.close()` after the first environment step and in
particular never returns `(-2, 3)`. -/
theorem C5_driver_aborts :
    (play_epis unitReinf pick0 envDone3 agent0 (some 10) (some "train")).1 =
        EpisOutcome.attrError "close" ∧
    (play_epis unitReinf pick0 envDone3 agent0 (some 10) (some "train")).1 ≠
        EpisOutcome.returned (-2) 3 := by
  decide

/-- C10 (counterexample): the claim says `play_epis` can only return
normally from the `return` statement inside the first loop iteration.  With
`max_episode_steps = 1` the step-limit `break` is taken and the call returns
`None` by falling off the end of the function — a normal return that is not
the `return` statement — and with `max_episode_steps = 500` the call reaches
`agent.close()` and aborts, so the `return` statement itself never executes. -/
theorem C10_counterexample :
    (play_epis unitReinf pick0 envStub agent0 (some 1) none).1 =
        EpisOutcome.returnedNone ∧
    (play_epis unitReinf pick0 envStub agent0 (some 500) none).1 =
        EpisOutcome.attrError "close" := by
  decide

/-- C10 (amended): `close` is not among the methods the `A2C` class defines,
so every `play_epis` call whose first iteration passes the done check and the
step-limit check aborts with an `AttributeError` on `agent.close()` after
exactly one environment step; consequently the trailing `return` statement is
unreachable — no call ever returns an (episode reward, elapsed steps) pair,
and the only normal exit is the step-limit `break`, which returns `None`. -/
theorem C10_close_aborts {P : Type} (reinfFn : ℚ → ℚ → List Entry → P → P)
    (sample : P → Obs → ℕ) (env : EnvModel) (agent : A2CState P)
    (maxSteps : Option ℕ) (mode : Option String) :
    (A2C_methods.contains "close" = false) ∧
    (∀ (er : ℚ) (n : ℕ),
        (play_epis reinfFn sample env agent maxSteps mode).1 ≠
          EpisOutcome.returned er n) ∧
    (limitHit maxSteps 1 = false →
        (play_epis reinfFn sample env agent maxSteps mode).1 =
          EpisOutcome.attrError "close") := by
  have hclose : A2C_methods.contains "close" = false := by decide
  have hmem : "close" ∉ A2C_methods := by decide
  refine ⟨hclose, ?_, ?_⟩
  · intro er n
    by_cases hl : limitHit maxSteps 1 <;>
      simp [play_epis, hl, hmem]
  · intro hl
    simp [play_epis, hl, hmem]

/-- C10 (witness for the amended theorem). -/
theorem C10_witness :
    (Acrobot.A2C_methods.contains "close" = false) ∧
    ((play_epis unitReinf pick0 envStub agent0 (some 500) none).1 =
        EpisOutcome.attrError "close") :=
  ⟨(C10_close_aborts unitReinf pick0 envStub agent0 (some 500) none).1,
   (C10_close_aborts unitReinf pick0 envStub agent0 (some 500) none).2.2 (by decide)⟩

/-- C8: the actor network built by `build_net(6, [100], 3, Softmax)` is
affine(6→100), ReLU, affine(100→3), softmax — a rectified-linear
nonlinearity after the hidden affine layer and only the softmax transform
after the final affine layer — and for every 6-dimensional observation and
any weights of the right output shape its forward pass is a probability
distribution over exactly 3 actions: 3 entries, all non-negative, summing
to 1. -/
theorem C8_actor_distribution :
    (build_net 6 [100] 3 (some Layer.softmax) =
      [Layer.linear 6 100, Layer.relu, Layer.linear 100 3, Layer.softmax]) ∧
    ∀ (W1 : List (List ℝ)) (b1 : List ℝ) (W2 : List (List ℝ)) (b2 : List ℝ)
      (obs : List ℝ), obs.length = 6 → W2.length = 3 → b2.length = 3 →
        (actorForward W1 b1 W2 b2 obs).length = 3 ∧
        (∀ p ∈ actorForward W1 b1 W2 b2 obs, 0 ≤ p) ∧
        (actorForward W1 b1 W2 b2 obs).sum = 1 := by
  constructor
  · rfl
  · intro W1 b1 W2 b2 obs _ hW2 hb2
    have hylen : (affineL W2 b2 (reluV (affineL W1 b1 obs))).length = 3 := by
      simp [affineL, List.length_zip, hW2, hb2]
    have hyne : affineL W2 b2 (reluV (affineL W1 b1 obs)) ≠ [] :=
      List.ne_nil_of_length_pos (by rw [hylen]; norm_num)
    have hsm := softmaxL_props _ hyne
    rw [actorForward_eq]
    exact ⟨by rw [hsm.1, hylen], hsm.2.1, hsm.2.2⟩

/-- C8 (witness): zero weights of the declared shapes on the zero
observation. -/
theorem C8_witness :
    (actorForward (List.replicate 100 (List.replicate 6 (0 : ℝ)))
        (List.replicate 100 (0 : ℝ)) (List.replicate 3 (List.replicate 100 (0 : ℝ)))
        (List.replicate 3 (0 : ℝ)) (List.replicate 6 (0 : ℝ))).length = 3 ∧
    (∀ p ∈ actorForward (List.replicate 100 (List.replicate 6 (0 : ℝ)))
        (List.replicate 100 (0 : ℝ)) (List.replicate 3 (List.replicate 100 (0 : ℝ)))
        (List.replicate 3 (0 : ℝ)) (List.replicate 6 (0 : ℝ)), 0 ≤ p) ∧
    (actorForward (List.replicate 100 (List.replicate 6 (0 : ℝ)))
        (List.replicate 100 (0 : ℝ)) (List.replicate 3 (List.replicate 100 (0 : ℝ)))
        (List.replicate 3 (0 : ℝ)) (List.replicate 6 (0 : ℝ))).sum = 1 :=
  C8_actor_distribution.2 (List.replicate 100 (List.replicate 6 (0 : ℝ)))
    (List.replicate 100 (0 : ℝ)) (List.replicate 3 (List.replicate 100 (0 : ℝ)))
    (List.replicate 3 (0 : ℝ)) (List.replicate 6 (0 : ℝ))
    (by simp) (by simp) (by simp)

end Acrobot
